import Mathlib

/-!
Shallow embedding of the mujoco-rs scheduling / input layer
(src/mujoco-app/src/mujoco_app.rs) and of the VFS wrapper
(src/mujoco/src/vfs.rs), with theorems checking the specification's
claims about them.

Wall-clock instants and durations are modelled as exact rationals (ℚ);
`Instant::elapsed` saturates at zero, modelled with `max _ 0`, and the
Rust `as u32` cast of a non-negative float floor is `Int.toNat ∘ Int.floor`
(both saturate at zero on negative values).
-/

namespace MujocoRs

/-- Events observable at the physics-engine interface: a `control` call and a
`step` call.  The actuation vector contents are opaque collaborator data. -/
inductive SimEvent
  | ctrl
  | step
deriving DecidableEq

/-- Modelled from the spec (§6, physics-engine collaborator, excluded from
src/): `step()` advances the simulation by one model timestep and mutates
state, `control(vector)` applies an actuation vector, `time()` reads current
simulation time.  The simulation records its model timestep, its time, and
the trace of interface events issued to it. -/
structure Simulation where
  model_timestep : ℚ
  time : ℚ
  events : List SimEvent
deriving DecidableEq

/-- Modelled from the spec: a freshly created simulation has time zero and an
empty event trace (`Simulation::new(model)` in mujoco_app.rs line 380). -/
def Simulation.new (ts : ℚ) : Simulation :=
  { model_timestep := ts, time := 0, events := [] }

/-- Modelled from the spec: `step()` advances simulation time by one fixed
timestep (glossary: "fixed simulated-time duration advanced by one physics
step") and appends a `step` event. -/
def Simulation.step (s : Simulation) : Simulation :=
  { s with time := s.time + s.model_timestep,
           events := s.events ++ [SimEvent.step] }

/-- Modelled from the spec: `control(vector)` applies an actuation vector;
only the fact of the call is recorded. -/
def Simulation.control (s : Simulation) : Simulation :=
  { s with events := s.events ++ [SimEvent.ctrl] }

/-- Number of physics steps the simulation has performed. -/
def Simulation.stepCount (s : Simulation) : ℕ :=
  s.events.count SimEvent.step

/-- The enum `PhysicsRunningState` of mujoco_app.rs (lines 76-81). -/
inductive PhysicsRunningState
  | Paused
  | RateLimited
  | Uncapped
deriving DecidableEq

/-- The struct `PhysicsState` of mujoco_app.rs (lines 83-87); the
`frame_rate: f32` field is modelled as an exact rational. -/
structure PhysicsState where
  running_state : PhysicsRunningState
  frame_rate : ℚ
deriving DecidableEq

/-- The closure `step_sim` of `loop_physics_threaded` (lines 97-105): lock
the simulation, run the control callback when one is present (compute a
control vector from the state and apply it), then step.  The presence of
the callback (`Option<CtrlFun>`) is modelled as a Bool. -/
def step_sim (hasCtrl : Bool) (sim : Simulation) : Simulation :=
  (if hasCtrl then sim.control else sim).step

/-- The loop `for _ in 0..num_steps { step_sim(); }` of the RateLimited arm
(lines 120-122): `step_sim` applied `n` times. -/
def run_steps (hasCtrl : Bool) : ℕ → Simulation → Simulation
  | 0, s => s
  | n + 1, s => run_steps hasCtrl n (step_sim hasCtrl s)

/-- The state visible to one iteration of `loop_physics_threaded`: the local
variable `last_updated`, the shared simulation, and the shared
`PhysicsState` record (read, never written, by the scheduler). -/
structure SchedWorld where
  last_updated : ℚ
  sim : Simulation
  physics : PhysicsState
deriving DecidableEq

/-- One iteration of the loop body of `loop_physics_threaded`
(mujoco_app.rs lines 106-131), parameterised by the sampled `timestep`, the
presence of a control callback, and the current wall-clock instant `now`.
It first locks and copies the shared `PhysicsState` and branches on the
mode.  `Paused`: reset `last_updated` to now (the 1 ms sleep has no state
effect).  `RateLimited`: `elapsed_real = last_updated.elapsed()`
(saturating at 0), `num_steps = (elapsed_real / timestep).floor() as u32`,
run that many `step_sim` calls, then
`last_updated += num_steps * timestep` (the sleep has no state effect).
`Uncapped`: one `step_sim`, then `last_updated = now`. -/
def loop_physics_threaded_iter (timestep : ℚ) (hasCtrl : Bool) (now : ℚ)
    (w : SchedWorld) : SchedWorld :=
  match w.physics.running_state with
  | PhysicsRunningState.Paused =>
      { w with last_updated := now }
  | PhysicsRunningState.RateLimited =>
      let elapsed_real : ℚ := max (now - w.last_updated) 0
      let num_steps : ℕ := (Int.floor (elapsed_real / timestep)).toNat
      { w with
        sim := run_steps hasCtrl num_steps w.sim,
        last_updated := w.last_updated + (num_steps : ℚ) * timestep }
  | PhysicsRunningState.Uncapped =>
      { w with sim := step_sim hasCtrl w.sim, last_updated := now }

/-- The timestep sampled once at scheduler start:
`let timestep = sim.lock().unwrap().state.time();` (line 96). -/
def scheduler_timestep (sim : Simulation) : ℚ := sim.time

/-- The block of events one `step_sim` call appends. -/
def step_block (hasCtrl : Bool) : List SimEvent :=
  if hasCtrl then [SimEvent.ctrl, SimEvent.step] else [SimEvent.step]

/-- A sequence of RateLimited-era scheduler iterations, one per polling
instant in `times` (in order). -/
def run_polls (timestep : ℚ) (hasCtrl : Bool) (times : List ℚ)
    (w : SchedWorld) : SchedWorld :=
  times.foldl (fun acc now => loop_physics_threaded_iter timestep hasCtrl now acc) w

/-- The logical key of a winit `KeyEvent`, restricted to the keys the
handler matches on (space / escape / a character string / anything else). -/
inductive LogicalKey
  | space
  | escape
  | character (c : String)
  | other
deriving DecidableEq

/-- A keyboard input event as matched by `window_event`: logical key,
whether the key is pressed (`ElementState::Pressed`), and the key-repeat
flag. -/
structure KeyEventM where
  logical_key : LogicalKey
  pressed : Bool
  key_repeat : Bool
deriving DecidableEq

/-- The struct `MujocoApp` (lines 134-141): presence of the control
callback and of the rendering context are modelled as Bools; `last_render`
is a wall-clock instant. -/
structure MujocoApp where
  has_ctrl : Bool
  has_rendering : Bool
  sim : Simulation
  physics_state : PhysicsState
  frame_rate_limited : Bool
  last_render : ℚ
deriving DecidableEq

/-- The keyboard part of `ApplicationHandler::window_event`
(mujoco_app.rs lines 278-334).  Only key events mutate app state:
`CloseRequested` and Escape call `event_loop.exit()` (no app-state
mutation), `RedrawRequested` calls `render` (modelled separately).
Space (pressed, not repeat): Paused goes to RateLimited or Uncapped
according to `frame_rate_limited`, any other mode goes to Paused.
Character "u" (pressed, not repeat): flip `frame_rate_limited`, then set
the mode to RateLimited if the new flag is set, else Uncapped —
unconditionally, whatever the current mode.  Everything else matches the
wildcard arm and changes nothing. -/
def window_event (app : MujocoApp) (ev : KeyEventM) : MujocoApp :=
  match ev.logical_key, ev.pressed, ev.key_repeat with
  | LogicalKey.space, true, false =>
      match app.physics_state.running_state with
      | PhysicsRunningState.Paused =>
          if app.frame_rate_limited then
            { app with physics_state :=
                { app.physics_state with
                    running_state := PhysicsRunningState.RateLimited } }
          else
            { app with physics_state :=
                { app.physics_state with
                    running_state := PhysicsRunningState.Uncapped } }
      | _ =>
          { app with physics_state :=
              { app.physics_state with
                  running_state := PhysicsRunningState.Paused } }
  | LogicalKey.character c, true, false =>
      if c = "u" then
        let new_flag := !app.frame_rate_limited
        if new_flag then
          { app with
              frame_rate_limited := new_flag,
              physics_state :=
                { app.physics_state with
                    running_state := PhysicsRunningState.RateLimited } }
        else
          { app with
              frame_rate_limited := new_flag,
              physics_state :=
                { app.physics_state with
                    running_state := PhysicsRunningState.Uncapped } }
      else app
  | _, _, _ => app

/-- The Run-Mode State mutation performed by `MujocoApp::render`
(mujoco_app.rs lines 178-184): compute the instantaneous fps from the time
since `last_render`, record the new `last_render`, and write the fps into
`physics_state.frame_rate`.  The drawing itself touches no app state other
than these fields. -/
def render_update_state (app : MujocoApp) (now : ℚ) : MujocoApp :=
  let fps := 1 / (now - app.last_render)
  { app with
      last_render := now,
      physics_state := { app.physics_state with frame_rate := fps } }

/-- A loaded model, reduced to the only datum the core consumes: its
timestep (modelled from the spec's model-loading collaborator, §6). -/
structure ModelM where
  timestep : ℚ
deriving DecidableEq

/-- The struct `AppBuilder` (lines 349-353): presence of `ctrl_cb` and of
`render_data` are modelled as Bools. -/
structure AppBuilder where
  has_ctrl : Bool
  has_rendering : Bool
  model : ModelM
deriving DecidableEq

/-- The error struct `AppBuilderErr(String)` (line 357). -/
structure AppBuilderErr where
  msg : String
deriving DecidableEq

/-- `AppBuilder::from_model` (lines 360-366): a builder with no control
callback and no rendering data, wrapping the model. -/
def AppBuilder.from_model (m : ModelM) : AppBuilder :=
  { has_ctrl := false, has_rendering := false, model := m }

/-- `AppBuilder::from_xml` (lines 368-377), parameterised by the
model-loading collaborator `load_model` (`mujoco_rust::Model::from_xml`,
external to the core): on success wrap the model via `from_model`; on
failure return the constructed `AppBuilderErr` whose message embeds the
xml string (the source wraps it in single quotation marks via `format!`). -/
def AppBuilder.from_xml (load_model : String → Option ModelM)
    (xml : String) : Except AppBuilderErr AppBuilder :=
  match load_model xml with
  | some model => Except.ok (AppBuilder.from_model model)
  | none => Except.error { msg := "Failed to load xml file: " ++ xml }

/-- `AppBuilder::build` (lines 379-409), taking the current wall-clock
instant for `Instant::now()`: create the simulation, perform one bootstrap
`sim.step()` ("Propagate data by stepping simulation once"), and assemble
the app with mode `Paused`, `frame_rate` 60, `frame_rate_limited` true.
The graphics-context setup mutates only collaborator state. -/
def AppBuilder.build (b : AppBuilder) (now : ℚ) : MujocoApp :=
  let sim := Simulation.new b.model.timestep
  let sim := sim.step
  { has_ctrl := b.has_ctrl
    has_rendering := b.has_rendering
    sim := sim
    physics_state := { running_state := PhysicsRunningState.Paused,
                       frame_rate := 60 }
    frame_rate_limited := true
    last_render := now }

/-- The two control paths of `MujocoApp::run_app` (lines 144-156): with a
rendering context the event loop runs with a spawned physics thread;
without one the headless `loop_physics` runs. -/
inductive RunPath
  | event_driven
  | headless
deriving DecidableEq

/-- Which path `run_app` takes, from its `if self.rendering.is_some()`. -/
def run_app_path (app : MujocoApp) : RunPath :=
  if app.has_rendering then RunPath.event_driven else RunPath.headless

/-- The world visible to the headless loop: the simulation and the (never
consulted) Run-Mode State record. -/
structure HeadlessWorld where
  sim : Simulation
  physics : PhysicsState
deriving DecidableEq

/-- One iteration of the headless `MujocoApp::loop_physics`
(lines 167-176): lock the simulation, apply the control callback when
present, step.  No mode is read, no sleep occurs, no timing state exists. -/
def loop_physics_iter (hasCtrl : Bool) (w : HeadlessWorld) : HeadlessWorld :=
  { w with sim :=
      (if hasCtrl then w.sim.control else w.sim).step }

/-- The enum `AddError` of vfs.rs (lines 4-8). -/
inductive AddError
  | VfsFull
  | RepeatedName
deriving DecidableEq

/-- The result dispatch of `Vfs::add_file` (vfs.rs lines 53-58) on the
collaborator's return code: arm 1 gives `VfsFull`, arm 2 gives
`RepeatedName`, arm 0 succeeds, and the wildcard arm hits `unreachable!()`
(a process abort, modelled as `none`). -/
def add_file_from_code (add_errno : Int) : Option (Except AddError Unit) :=
  if add_errno = 1 then some (Except.error AddError.VfsFull)
  else if add_errno = 2 then some (Except.error AddError.RepeatedName)
  else if add_errno = 0 then some (Except.ok ())
  else none

/-- `Vfs::add_file` (vfs.rs lines 37-61), parameterised by the
`mj_addBufferVFS` collaborator, here a function from the filename and the
contents to the returned error code. -/
def Vfs.add_file (add_buffer : String → List UInt8 → Int)
    (filename : String) (contents : List UInt8) :
    Option (Except AddError Unit) :=
  add_file_from_code (add_buffer filename contents)

/-! Helper lemmas about the embedded operations. -/

theorem step_sim_events (hasCtrl : Bool) (s : Simulation) :
    (step_sim hasCtrl s).events = s.events ++ step_block hasCtrl := by
  cases hasCtrl <;>
    simp [step_sim, step_block, Simulation.step, Simulation.control]

theorem step_sim_stepCount (hasCtrl : Bool) (s : Simulation) :
    (step_sim hasCtrl s).stepCount = s.stepCount + 1 := by
  cases hasCtrl <;>
    simp [step_sim, Simulation.stepCount, Simulation.step,
      Simulation.control, List.count_append]

theorem run_steps_events (hasCtrl : Bool) (n : ℕ) (s : Simulation) :
    (run_steps hasCtrl n s).events
      = s.events ++ (List.replicate n (step_block hasCtrl)).flatten := by
  induction n generalizing s with
  | zero => simp [run_steps]
  | succ k ih =>
      rw [run_steps, ih, step_sim_events, List.replicate_succ,
        List.flatten_cons, List.append_assoc]

theorem run_steps_stepCount (hasCtrl : Bool) (n : ℕ) (s : Simulation) :
    (run_steps hasCtrl n s).stepCount = s.stepCount + n := by
  induction n generalizing s with
  | zero => simp [run_steps]
  | succ k ih =>
      rw [run_steps, ih, step_sim_stepCount]
      omega

/-- The number of `step_sim` calls the RateLimited arm performs for a given
marker and instant. -/
def rl_num_steps (timestep last now : ℚ) : ℕ :=
  (Int.floor ((max (now - last) 0) / timestep)).toNat

theorem iter_paused_eq (timestep : ℚ) (hasCtrl : Bool) (now : ℚ)
    (w : SchedWorld)
    (h : w.physics.running_state = PhysicsRunningState.Paused) :
    loop_physics_threaded_iter timestep hasCtrl now w
      = { w with last_updated := now } := by
  unfold loop_physics_threaded_iter
  rw [h]

theorem iter_rl_eq (timestep : ℚ) (hasCtrl : Bool) (now : ℚ)
    (w : SchedWorld)
    (h : w.physics.running_state = PhysicsRunningState.RateLimited) :
    loop_physics_threaded_iter timestep hasCtrl now w
      = { w with
            sim := run_steps hasCtrl (rl_num_steps timestep w.last_updated now) w.sim,
            last_updated := w.last_updated
              + ((rl_num_steps timestep w.last_updated now : ℚ)) * timestep } := by
  unfold loop_physics_threaded_iter rl_num_steps
  rw [h]

theorem iter_uncapped_eq (timestep : ℚ) (hasCtrl : Bool) (now : ℚ)
    (w : SchedWorld)
    (h : w.physics.running_state = PhysicsRunningState.Uncapped) :
    loop_physics_threaded_iter timestep hasCtrl now w
      = { w with sim := step_sim hasCtrl w.sim, last_updated := now } := by
  unfold loop_physics_threaded_iter
  rw [h]

theorem iter_physics_eq (timestep : ℚ) (hasCtrl : Bool) (now : ℚ)
    (w : SchedWorld) :
    (loop_physics_threaded_iter timestep hasCtrl now w).physics = w.physics := by
  unfold loop_physics_threaded_iter
  rcases h : w.physics.running_state <;> simp

/-! Arithmetic facts about the phase-preserving accumulator. -/

theorem rl_num_steps_eq_floor (timestep last now : ℚ)
    (hle : last ≤ now) :
    rl_num_steps timestep last now
      = (Int.floor ((now - last) / timestep)).toNat := by
  unfold rl_num_steps
  rw [max_eq_left (sub_nonneg.mpr hle)]

theorem rl_num_steps_cast (timestep last now : ℚ) (ht : 0 < timestep)
    (hle : last ≤ now) :
    ((rl_num_steps timestep last now : ℤ))
      = Int.floor ((now - last) / timestep) := by
  rw [rl_num_steps_eq_floor timestep last now hle]
  exact Int.toNat_of_nonneg
    (Int.floor_nonneg.mpr (div_nonneg (sub_nonneg.mpr hle) ht.le))

theorem rl_marker_le (timestep last now : ℚ) (ht : 0 < timestep)
    (hle : last ≤ now) :
    last + ((rl_num_steps timestep last now : ℚ)) * timestep ≤ now := by
  have hcast : ((rl_num_steps timestep last now : ℚ))
      = ((Int.floor ((now - last) / timestep) : ℤ) : ℚ) := by
    rw [← rl_num_steps_cast timestep last now ht hle]
    push_cast
    ring
  rw [hcast]
  have hfl : ((Int.floor ((now - last) / timestep) : ℤ) : ℚ)
      ≤ (now - last) / timestep := Int.floor_le _
  have := (mul_le_mul_of_nonneg_right hfl ht.le)
  rw [div_mul_cancel₀ _ ht.ne'] at this
  linarith

theorem rl_marker_remainder_lt (timestep last now : ℚ) (ht : 0 < timestep)
    (hle : last ≤ now) :
    now - (last + ((rl_num_steps timestep last now : ℚ)) * timestep)
      < timestep := by
  have hcast : ((rl_num_steps timestep last now : ℚ))
      = ((Int.floor ((now - last) / timestep) : ℤ) : ℚ) := by
    rw [← rl_num_steps_cast timestep last now ht hle]
    push_cast
    ring
  rw [hcast]
  have hfl : (now - last) / timestep
      < ((Int.floor ((now - last) / timestep) : ℤ) : ℚ) + 1 :=
    Int.lt_floor_add_one _
  have := (mul_lt_mul_of_pos_right hfl ht)
  rw [div_mul_cancel₀ _ ht.ne'] at this
  linarith

/-! Claim theorems. -/

/-- C1: in RateLimited mode, one scheduler iteration with fixed timestep
`t` and elapsed wall-clock time `now - last_updated` performs exactly
`floor(elapsed / t)` simulation steps back-to-back — each step being the
Control-Law Hook call (when present) followed by the physics step — and
advances `last_updated` by exactly that many whole timesteps, not to
`now`. -/
theorem C1_rate_limited_iteration (timestep now : ℚ) (hasCtrl : Bool)
    (w : SchedWorld)
    (hrl : w.physics.running_state = PhysicsRunningState.RateLimited)
    (_ht : 0 < timestep) (hle : w.last_updated ≤ now) :
    (loop_physics_threaded_iter timestep hasCtrl now w).sim.events
        = w.sim.events
          ++ (List.replicate
                ((Int.floor ((now - w.last_updated) / timestep)).toNat)
                (step_block hasCtrl)).flatten
      ∧ (loop_physics_threaded_iter timestep hasCtrl now w).last_updated
        = w.last_updated
          + (((Int.floor ((now - w.last_updated) / timestep)).toNat : ℚ))
              * timestep := by
  rw [iter_rl_eq _ _ _ _ hrl]
  rw [show rl_num_steps timestep w.last_updated now
        = (Int.floor ((now - w.last_updated) / timestep)).toNat from
      rl_num_steps_eq_floor _ _ _ hle]
  exact ⟨run_steps_events _ _ _, rfl⟩

/-- The concrete world used to instantiate C1: marker 0, fresh simulation,
RateLimited mode. -/
def c1_world : SchedWorld :=
  { last_updated := 0,
    sim := Simulation.new (1/500),
    physics := { running_state := PhysicsRunningState.RateLimited,
                 frame_rate := 60 } }

/-- Witness for C1 at timestep 1/500, elapsed 1/100: five hook-then-step
blocks and a marker advance of exactly 5 * (1/500). -/
theorem C1_rate_limited_iteration_witness :
    (0 : ℚ) < 1/500 ∧ c1_world.last_updated ≤ (1/100 : ℚ)
      ∧ (loop_physics_threaded_iter (1/500) true (1/100) c1_world).sim.events
        = [SimEvent.ctrl, SimEvent.step, SimEvent.ctrl, SimEvent.step,
           SimEvent.ctrl, SimEvent.step, SimEvent.ctrl, SimEvent.step,
           SimEvent.ctrl, SimEvent.step]
      ∧ (loop_physics_threaded_iter (1/500) true (1/100) c1_world).last_updated
        = 1/100 := by
  have hle : c1_world.last_updated ≤ (1/100 : ℚ) := by
    show (0 : ℚ) ≤ 1/100
    norm_num
  have h := C1_rate_limited_iteration (1/500) (1/100) true c1_world rfl
    (by norm_num) hle
  have h5 : Int.floor (((1 : ℚ)/100 - c1_world.last_updated) / (1/500)) = 5 := by
    show Int.floor (((1 : ℚ)/100 - 0) / (1/500)) = 5
    norm_num
  rw [h5] at h
  refine ⟨by norm_num, hle, ?_, ?_⟩
  · rw [h.1]
    rfl
  · rw [h.2]
    show (0 : ℚ) + ((5 : ℕ) : ℚ) * (1/500) = 1/100
    norm_num

/-- C3: a Paused scheduler iteration performs zero simulation steps and
resets the marker to the current instant; hence a later RateLimited
iteration counts steps only from the instant of the paused iteration,
independently of how old the previous marker was — time spent paused is
discarded, never caught up. -/
theorem C3_paused_discards_time (timestep now0 now1 : ℚ) (hasCtrl : Bool)
    (w : SchedWorld)
    (hp : w.physics.running_state = PhysicsRunningState.Paused) :
    (loop_physics_threaded_iter timestep hasCtrl now0 w).sim = w.sim
      ∧ (loop_physics_threaded_iter timestep hasCtrl now0 w).last_updated = now0
      ∧ ∀ ps1 : PhysicsState,
          ps1.running_state = PhysicsRunningState.RateLimited →
          (loop_physics_threaded_iter timestep hasCtrl now1
              { loop_physics_threaded_iter timestep hasCtrl now0 w with
                  physics := ps1 }).sim.events
            = w.sim.events
              ++ (List.replicate (rl_num_steps timestep now0 now1)
                    (step_block hasCtrl)).flatten := by
  rw [iter_paused_eq _ _ _ _ hp]
  refine ⟨rfl, rfl, ?_⟩
  intro ps1 hps1
  rw [iter_rl_eq _ _ _ _ hps1]
  exact run_steps_events _ _ _

/-- The concrete world used to instantiate C3: marker 0, fresh simulation,
Paused mode. -/
def c3_world : SchedWorld :=
  { last_updated := 0,
    sim := Simulation.new (1/500),
    physics := { running_state := PhysicsRunningState.Paused,
                 frame_rate := 60 } }

/-- Witness for C3: after pausing until instant 100 (a 100-second pause
with the marker still at 0), a RateLimited poll 1/100 later performs only
5 steps — none of the 100 paused seconds is caught up. -/
theorem C3_paused_discards_time_witness :
    c3_world.physics.running_state = PhysicsRunningState.Paused
      ∧ (loop_physics_threaded_iter (1/500) true 100 c3_world).sim = c3_world.sim
      ∧ (loop_physics_threaded_iter (1/500) true 100 c3_world).last_updated = 100
      ∧ (loop_physics_threaded_iter (1/500) true (100 + 1/100)
            { loop_physics_threaded_iter (1/500) true 100 c3_world with
                physics := { running_state := PhysicsRunningState.RateLimited,
                             frame_rate := 60 } }).sim.events
        = [SimEvent.ctrl, SimEvent.step, SimEvent.ctrl, SimEvent.step,
           SimEvent.ctrl, SimEvent.step, SimEvent.ctrl, SimEvent.step,
           SimEvent.ctrl, SimEvent.step] := by
  have h := C3_paused_discards_time (1/500) 100 (100 + 1/100) true c3_world rfl
  refine ⟨rfl, h.1, h.2.1, ?_⟩
  have h5 : rl_num_steps (1/500) 100 (100 + 1/100) = 5 := by
    have hfl : Int.floor ((100 + (1 : ℚ)/100 - 100) / (1/500)) = 5 := by
      norm_num
    rw [rl_num_steps_eq_floor _ _ _ (by norm_num), hfl]
    rfl
  rw [h.2.2 { running_state := PhysicsRunningState.RateLimited,
              frame_rate := 60 } rfl, h5]
  rfl

/-- A pressed, non-repeat "u" key event. -/
def u_key_event : KeyEventM :=
  { logical_key := LogicalKey.character ("u"),
    pressed := true,
    key_repeat := false }

/-- A concrete app that is Paused with the frame-rate-limited flag set. -/
def c2_app : MujocoApp :=
  { has_ctrl := false,
    has_rendering := true,
    sim := Simulation.new (1/500),
    physics_state := { running_state := PhysicsRunningState.Paused,
                       frame_rate := 60 },
    frame_rate_limited := true,
    last_render := 0 }

/-- C2 counterexample: the claim says that pressing the preference key
while Paused leaves the running mode Paused, but the handler's "u" arm
(mujoco_app.rs lines 325-333) writes the mode unconditionally: on this
Paused app the press moves the mode to Uncapped. -/
theorem C2_counterexample :
    c2_app.physics_state.running_state = PhysicsRunningState.Paused
      ∧ (window_event c2_app u_key_event).physics_state.running_state
          ≠ PhysicsRunningState.Paused := by
  constructor
  · rfl
  · simp [window_event, c2_app, u_key_event]

/-- C2 (amended): pressing the preference key ("u", key-press, not
key-repeat) always flips the frame-rate-limited preference flag and then
always sets the mode to RateLimited (flag now set) or Uncapped (flag now
clear), whatever the current mode — including Paused, which it leaves. -/
theorem C2_preference_key_amended (app : MujocoApp) :
    (window_event app u_key_event).frame_rate_limited
        = !app.frame_rate_limited
      ∧ (window_event app u_key_event).physics_state.running_state
        = (if !app.frame_rate_limited then PhysicsRunningState.RateLimited
           else PhysicsRunningState.Uncapped)
      ∧ window_event app { logical_key := LogicalKey.character ("u"),
                           pressed := true, key_repeat := true } = app
      ∧ window_event app { logical_key := LogicalKey.character ("u"),
                           pressed := false, key_repeat := false } = app
      ∧ window_event app { logical_key := LogicalKey.character ("u"),
                           pressed := false, key_repeat := true } = app := by
  refine ⟨?_, ?_, rfl, rfl, rfl⟩ <;>
    cases h : app.frame_rate_limited <;>
      simp [window_event, u_key_event, h]

/-- A pressed, non-repeat space key event. -/
def space_key_event : KeyEventM :=
  { logical_key := LogicalKey.space,
    pressed := true,
    key_repeat := false }

/-- C4: the space toggle (key-press, not key-repeat): from Paused it moves
to RateLimited when the frame-rate-limited preference flag is set and to
Uncapped otherwise; from RateLimited or Uncapped it always moves to
Paused; space events that are releases or key-repeats change nothing. -/
theorem C4_space_toggle (app : MujocoApp) :
    (app.physics_state.running_state = PhysicsRunningState.Paused →
        app.frame_rate_limited = true →
        (window_event app space_key_event).physics_state.running_state
          = PhysicsRunningState.RateLimited)
      ∧ (app.physics_state.running_state = PhysicsRunningState.Paused →
        app.frame_rate_limited = false →
        (window_event app space_key_event).physics_state.running_state
          = PhysicsRunningState.Uncapped)
      ∧ (app.physics_state.running_state = PhysicsRunningState.RateLimited →
        (window_event app space_key_event).physics_state.running_state
          = PhysicsRunningState.Paused)
      ∧ (app.physics_state.running_state = PhysicsRunningState.Uncapped →
        (window_event app space_key_event).physics_state.running_state
          = PhysicsRunningState.Paused)
      ∧ (∀ pr re : Bool, (pr && !re) = false →
        window_event app { logical_key := LogicalKey.space,
                           pressed := pr, key_repeat := re } = app) := by
  refine ⟨?_, ?_, ?_, ?_, ?_⟩
  · intro hps hfl
    simp [window_event, space_key_event, hps, hfl]
  · intro hps hfl
    simp [window_event, space_key_event, hps, hfl]
  · intro hps
    simp [window_event, space_key_event, hps]
  · intro hps
    simp [window_event, space_key_event, hps]
  · intro pr re hpr
    cases pr <;> cases re <;> simp_all [window_event]

/-- Witness for C4 at a concrete Paused app with the preference flag set:
the space press yields RateLimited, and a key-repeat space event is
ignored. -/
theorem C4_space_toggle_witness :
    c2_app.physics_state.running_state = PhysicsRunningState.Paused
      ∧ c2_app.frame_rate_limited = true
      ∧ (window_event c2_app space_key_event).physics_state.running_state
          = PhysicsRunningState.RateLimited
      ∧ (true && !true) = false
      ∧ window_event c2_app { logical_key := LogicalKey.space,
                              pressed := true, key_repeat := true } = c2_app :=
  ⟨rfl, rfl, (C4_space_toggle c2_app).1 rfl rfl, rfl,
    (C4_space_toggle c2_app).2.2.2.2 true true rfl⟩

/-- C6: a scheduler iteration never writes the Run-Mode State record, in
any of the three modes — the record it returns is the one it read — while
the presentation loop's render path writes only `frame_rate` (and the
app-local `last_render`), leaving `running_state` and the preference flag
untouched. -/
theorem C6_scheduler_frame (timestep now now2 : ℚ) (hasCtrl : Bool)
    (w : SchedWorld) (app : MujocoApp) :
    (loop_physics_threaded_iter timestep hasCtrl now w).physics = w.physics
      ∧ (render_update_state app now2).physics_state.running_state
        = app.physics_state.running_state
      ∧ (render_update_state app now2).frame_rate_limited
        = app.frame_rate_limited :=
  ⟨iter_physics_eq _ _ _ _, rfl, rfl⟩

/-- C7: without a rendering context `run_app` takes the headless path, and
every headless loop iteration applies the Control-Law Hook (when present)
and then steps, unconditionally: it never consults the Run-Mode State (the
result is the same for any record, so the initial Paused mode does not
prevent stepping) and never writes it. -/
theorem C7_headless_loop (hasCtrl : Bool) (sim : Simulation)
    (ps ps2 : PhysicsState) (app : MujocoApp)
    (hnr : app.has_rendering = false) :
    run_app_path app = RunPath.headless
      ∧ (loop_physics_iter hasCtrl { sim := sim, physics := ps }).physics = ps
      ∧ (loop_physics_iter hasCtrl { sim := sim, physics := ps }).sim
        = (loop_physics_iter hasCtrl { sim := sim, physics := ps2 }).sim
      ∧ (loop_physics_iter hasCtrl { sim := sim, physics := ps }).sim.events
        = sim.events ++ step_block hasCtrl := by
  refine ⟨?_, rfl, rfl, ?_⟩
  · unfold run_app_path
    rw [hnr]
    rfl
  · exact step_sim_events hasCtrl sim

/-- A concrete app without a rendering context, in the initial Paused
mode. -/
def c7_app : MujocoApp :=
  { has_ctrl := true,
    has_rendering := false,
    sim := Simulation.new (1/500),
    physics_state := { running_state := PhysicsRunningState.Paused,
                       frame_rate := 60 },
    frame_rate_limited := true,
    last_render := 0 }

/-- Witness for C7 at a concrete renderless app: the headless path is
taken, and one iteration on a Paused record still performs the
hook-then-step block. -/
theorem C7_headless_loop_witness :
    c7_app.has_rendering = false
      ∧ run_app_path c7_app = RunPath.headless
      ∧ (loop_physics_iter true
            { sim := c7_app.sim, physics := c7_app.physics_state }).sim.events
        = c7_app.sim.events ++ step_block true :=
  ⟨rfl,
    (C7_headless_loop true c7_app.sim c7_app.physics_state
      c7_app.physics_state c7_app rfl).1,
    (C7_headless_loop true c7_app.sim c7_app.physics_state
      c7_app.physics_state c7_app rfl).2.2.2⟩

/-- Splitting an elapsed interval at an intermediate poll loses no steps:
the steps of the poll up to `x` plus the steps of a poll from the advanced
marker up to `final` equal the steps of a single poll up to `final`. -/
theorem rl_steps_add (timestep m x final : ℚ) (ht : 0 < timestep)
    (hmx : m ≤ x) (hxf : x ≤ final) :
    rl_num_steps timestep m x
        + rl_num_steps timestep
            (m + ((rl_num_steps timestep m x : ℚ)) * timestep) final
      = rl_num_steps timestep m final := by
  have hk1 : rl_num_steps timestep m x
      = (Int.floor ((x - m) / timestep)).toNat :=
    rl_num_steps_eq_floor _ _ _ hmx
  have h1nn : 0 ≤ Int.floor ((x - m) / timestep) :=
    Int.floor_nonneg.mpr (div_nonneg (sub_nonneg.mpr hmx) ht.le)
  have hcastq : (((Int.floor ((x - m) / timestep)).toNat : ℚ))
      = ((Int.floor ((x - m) / timestep) : ℤ) : ℚ) := by
    exact_mod_cast congrArg (fun z : ℤ => (z : ℚ)) (Int.toNat_of_nonneg h1nn)
  have hm1x : m + (((Int.floor ((x - m) / timestep)).toNat : ℚ)) * timestep
      ≤ x := by
    rw [← hk1]
    exact rl_marker_le timestep m x ht hmx
  have hm1f : m + (((Int.floor ((x - m) / timestep)).toNat : ℚ)) * timestep
      ≤ final := le_trans hm1x hxf
  have hdiv : (final
        - (m + (((Int.floor ((x - m) / timestep)).toNat : ℚ)) * timestep))
        / timestep
      = (final - m) / timestep
        - ((Int.floor ((x - m) / timestep) : ℤ) : ℚ) := by
    rw [hcastq]
    field_simp
    ring
  have hfl2 : Int.floor ((final
        - (m + (((Int.floor ((x - m) / timestep)).toNat : ℚ)) * timestep))
        / timestep)
      = Int.floor ((final - m) / timestep)
        - Int.floor ((x - m) / timestep) := by
    rw [hdiv, Int.floor_sub_int]
  have h2nn : 0 ≤ Int.floor ((final
        - (m + (((Int.floor ((x - m) / timestep)).toNat : ℚ)) * timestep))
        / timestep) :=
    Int.floor_nonneg.mpr (div_nonneg (sub_nonneg.mpr hm1f) ht.le)
  rw [hk1, rl_num_steps_eq_floor _ _ _ hm1f,
    rl_num_steps_eq_floor _ _ _ (le_trans hmx hxf)]
  omega

/-- Marker version of `rl_steps_add`: the composed marker advance equals
the single-poll marker advance. -/
theorem rl_marker_add (timestep m x final : ℚ) (ht : 0 < timestep)
    (hmx : m ≤ x) (hxf : x ≤ final) :
    (m + ((rl_num_steps timestep m x : ℚ)) * timestep)
        + ((rl_num_steps timestep
              (m + ((rl_num_steps timestep m x : ℚ)) * timestep) final : ℚ))
            * timestep
      = m + ((rl_num_steps timestep m final : ℚ)) * timestep := by
  rw [← rl_steps_add timestep m x final ht hmx hxf]
  push_cast
  ring

/-- Main accumulator invariant: a run of RateLimited polls at the
non-decreasing instants `times ++ [final]` performs, in total, exactly the
steps of a single poll over the whole interval, and leaves the marker at
the single-poll position. -/
theorem run_polls_rl (timestep : ℚ) (hasCtrl : Bool) (times : List ℚ)
    (final : ℚ) (w : SchedWorld) (ht : 0 < timestep)
    (hrl : w.physics.running_state = PhysicsRunningState.RateLimited)
    (hchain : List.Chain' (fun a b => a ≤ b)
      (w.last_updated :: (times ++ [final]))) :
    (run_polls timestep hasCtrl (times ++ [final]) w).sim.stepCount
        = w.sim.stepCount + rl_num_steps timestep w.last_updated final
      ∧ (run_polls timestep hasCtrl (times ++ [final]) w).last_updated
        = w.last_updated
          + ((rl_num_steps timestep w.last_updated final : ℚ)) * timestep := by
  induction times generalizing w with
  | nil =>
      rw [show ([] : List ℚ) ++ [final] = [final] from rfl]
      rw [show run_polls timestep hasCtrl [final] w
          = loop_physics_threaded_iter timestep hasCtrl final w from rfl]
      rw [iter_rl_eq _ _ _ _ hrl]
      exact ⟨run_steps_stepCount _ _ _, rfl⟩
  | cons x rest ih =>
      have hmx : w.last_updated ≤ x := (List.chain'_cons.mp hchain).1
      have hc2 : List.Chain' (fun a b => a ≤ b) (x :: (rest ++ [final])) :=
        (List.chain'_cons.mp hchain).2
      have hxf : x ≤ final := by
        have hpw := List.chain'_iff_pairwise.mp hc2
        exact (List.pairwise_cons.mp hpw).1 final
          (List.mem_append.mpr (Or.inr (List.mem_singleton.mpr rfl)))
      have hrun : run_polls timestep hasCtrl ((x :: rest) ++ [final]) w
          = run_polls timestep hasCtrl (rest ++ [final])
              (loop_physics_threaded_iter timestep hasCtrl x w) := rfl
      have h1 := iter_rl_eq timestep hasCtrl x w hrl
      have hphys1 : (loop_physics_threaded_iter timestep hasCtrl x w).physics
          = w.physics := iter_physics_eq _ _ _ _
      have hrl1 : (loop_physics_threaded_iter timestep hasCtrl x
          w).physics.running_state = PhysicsRunningState.RateLimited := by
        rw [hphys1]
        exact hrl
      have hlu1 : (loop_physics_threaded_iter timestep hasCtrl x
            w).last_updated
          = w.last_updated
            + ((rl_num_steps timestep w.last_updated x : ℚ)) * timestep := by
        rw [h1]
      have hsc1 : (loop_physics_threaded_iter timestep hasCtrl x
            w).sim.stepCount
          = w.sim.stepCount + rl_num_steps timestep w.last_updated x := by
        rw [h1]
        exact run_steps_stepCount _ _ _
      have hw1x : (loop_physics_threaded_iter timestep hasCtrl x
          w).last_updated ≤ x := by
        rw [hlu1]
        exact rl_marker_le timestep w.last_updated x ht hmx
      have hchain1 : List.Chain' (fun a b => a ≤ b)
          ((loop_physics_threaded_iter timestep hasCtrl x w).last_updated
            :: (rest ++ [final])) := by
        rcases List.chain'_cons'.mp hc2 with ⟨hhead, htail⟩
        exact List.chain'_cons'.mpr
          ⟨fun y hy => le_trans hw1x (hhead y hy), htail⟩
      rcases ih (loop_physics_threaded_iter timestep hasCtrl x w)
        hrl1 hchain1 with ⟨ihs, ihm⟩
      constructor
      · rw [hrun, ihs, hsc1, hlu1, Nat.add_assoc,
          rl_steps_add timestep w.last_updated x final ht hmx hxf]
      · rw [hrun, ihm, hlu1,
          rl_marker_add timestep w.last_updated x final ht hmx hxf]

/-- C5: phase accumulation in RateLimited mode is lossless across polls —
for a fixed timestep t > 0 and any partition of an elapsed interval into
consecutive polls at non-decreasing instants, the accumulator's total step
count over the short polls equals the single-poll count
floor((final - start) / t), and the marker ends at the single-poll
position start + count * t. -/
theorem C5_lossless_accumulation (timestep : ℚ) (hasCtrl : Bool)
    (times : List ℚ) (final : ℚ) (w : SchedWorld) (ht : 0 < timestep)
    (hrl : w.physics.running_state = PhysicsRunningState.RateLimited)
    (hchain : List.Chain' (fun a b => a ≤ b)
      (w.last_updated :: (times ++ [final]))) :
    (run_polls timestep hasCtrl (times ++ [final]) w).sim.stepCount
        = w.sim.stepCount
          + (Int.floor ((final - w.last_updated) / timestep)).toNat
      ∧ (run_polls timestep hasCtrl (times ++ [final]) w).last_updated
        = w.last_updated
          + (((Int.floor ((final - w.last_updated) / timestep)).toNat : ℚ))
              * timestep := by
  have hmf : w.last_updated ≤ final := by
    have hpw := List.chain'_iff_pairwise.mp hchain
    exact (List.pairwise_cons.mp hpw).1 final
      (List.mem_append.mpr (Or.inr (List.mem_singleton.mpr rfl)))
  have h := run_polls_rl timestep hasCtrl times final w ht hrl hchain
  rw [rl_num_steps_eq_floor _ _ _ hmf] at h
  exact h

/-- The concrete RateLimited world used to instantiate C5. -/
def c5_world : SchedWorld :=
  { last_updated := 0,
    sim := Simulation.new (1/500),
    physics := { running_state := PhysicsRunningState.RateLimited,
                 frame_rate := 60 } }

/-- Witness for C5: the interval [0, 1/100] split into polls at 3/1000,
7/1000 and 1/100 yields in total exactly floor((1/100)/(1/500)) = 5 steps
(1 + 2 + 2 across the three polls), with the marker ending at 1/100. -/
theorem C5_lossless_accumulation_witness :
    (0 : ℚ) < 1/500
      ∧ c5_world.physics.running_state = PhysicsRunningState.RateLimited
      ∧ List.Chain' (fun a b : ℚ => a ≤ b)
          (c5_world.last_updated :: ([3/1000, 7/1000] ++ [1/100]))
      ∧ (run_polls (1/500) true ([3/1000, 7/1000] ++ [1/100])
          c5_world).sim.stepCount = 5
      ∧ (run_polls (1/500) true ([3/1000, 7/1000] ++ [1/100])
          c5_world).last_updated = 1/100 := by
  have hchain : List.Chain' (fun a b : ℚ => a ≤ b)
      (c5_world.last_updated :: ([3/1000, 7/1000] ++ [1/100])) := by
    show List.Chain' (fun a b : ℚ => a ≤ b) [0, 3/1000, 7/1000, 1/100]
    refine List.chain'_cons.mpr ⟨by norm_num, ?_⟩
    refine List.chain'_cons.mpr ⟨by norm_num, ?_⟩
    exact List.chain'_cons.mpr ⟨by norm_num, List.chain'_singleton _⟩
  have h := C5_lossless_accumulation (1/500) true [3/1000, 7/1000] (1/100)
    c5_world (by norm_num) rfl hchain
  have hfl : Int.floor (((1 : ℚ)/100 - c5_world.last_updated) / (1/500)) = 5 := by
    show Int.floor (((1 : ℚ)/100 - 0) / (1/500)) = 5
    norm_num
  rw [hfl] at h
  refine ⟨by norm_num, rfl, hchain, ?_, ?_⟩
  · rw [h.1]
    rfl
  · rw [h.2]
    show (0 : ℚ) + ((5 : ℕ) : ℚ) * (1/500) = 1/100
    norm_num

/-- The app built from a model whose timestep is 1/500 (= 0.002). -/
def c8_app : MujocoApp :=
  (AppBuilder.from_model { timestep := 1/500 }).build 0

/-- The C8 app after one space toggle press. -/
def c8_app1 : MujocoApp := window_event c8_app space_key_event

/-- C8 (end-to-end scenario A): building with timestep 0.002 performs one
bootstrap step before the scheduler samples the timestep (so the sampled
simulation time equals 0.002) and starts Paused with the
frame-rate-limited flag true; one space press moves the mode to
RateLimited; a scheduler poll with elapsed wall time 0.01 and the marker
at 0 then performs exactly floor(0.01 / 0.002) = 5 steps. -/
theorem C8_scenario_a :
    c8_app.physics_state.running_state = PhysicsRunningState.Paused
      ∧ c8_app.frame_rate_limited = true
      ∧ c8_app.sim.stepCount = 1
      ∧ scheduler_timestep c8_app.sim = 1/500
      ∧ c8_app1.physics_state.running_state = PhysicsRunningState.RateLimited
      ∧ (loop_physics_threaded_iter (scheduler_timestep c8_app1.sim) false
            (1/100)
            { last_updated := 0, sim := c8_app1.sim,
              physics := c8_app1.physics_state }).sim.stepCount
        = c8_app1.sim.stepCount + 5 := by
  refine ⟨rfl, rfl, rfl, ?_, rfl, ?_⟩
  · show (0 : ℚ) + 1/500 = 1/500
    norm_num
  · rw [iter_rl_eq _ _ _ _ rfl]
    have hts : scheduler_timestep c8_app1.sim = 1/500 := by
      show (0 : ℚ) + 1/500 = 1/500
      norm_num
    have hk : rl_num_steps (scheduler_timestep c8_app1.sim)
        (SchedWorld.last_updated
          { last_updated := 0, sim := c8_app1.sim,
            physics := c8_app1.physics_state }) (1/100) = 5 := by
      rw [hts]
      show rl_num_steps (1/500) 0 (1/100) = 5
      rw [rl_num_steps_eq_floor _ _ _ (by norm_num)]
      have hfl : Int.floor (((1 : ℚ)/100 - 0) / (1/500)) = 5 := by norm_num
      rw [hfl]
      rfl
    rw [hk]
    exact run_steps_stepCount _ _ _

/-- A concrete model-loading collaborator for the C9 witness: it succeeds
on one xml string and fails on every other. -/
def c9_loader : String → Option ModelM :=
  fun s => if s = "good.xml" then some { timestep := 1/500 } else none

/-- C9: `AppBuilder::from_xml` returns a constructed `AppBuilderErr`
exactly when the model-loading collaborator fails, and on success returns
the builder wrapping the loaded model with no control callback and no
rendering data — no simulation, Run-Mode State, or scheduler is created by
`from_xml` (those are only constructed later, by `build`). -/
theorem C9_from_xml_errors (load_model : String → Option ModelM)
    (xml : String) :
    (∀ m, load_model xml = some m →
        AppBuilder.from_xml load_model xml
          = Except.ok { has_ctrl := false, has_rendering := false,
                        model := m })
      ∧ (load_model xml = none →
        AppBuilder.from_xml load_model xml
          = Except.error { msg := "Failed to load xml file: " ++ xml })
      ∧ ((∃ e, AppBuilder.from_xml load_model xml = Except.error e)
          ↔ load_model xml = none) := by
  refine ⟨?_, ?_, ?_, ?_⟩
  · intro m hm
    unfold AppBuilder.from_xml
    rw [hm]
    rfl
  · intro hm
    unfold AppBuilder.from_xml
    rw [hm]
  · rintro ⟨e, he⟩
    cases hm : load_model xml with
    | none => rfl
    | some m =>
        unfold AppBuilder.from_xml at he
        rw [hm] at he
        exact absurd he (by simp)
  · intro hm
    refine ⟨{ msg := "Failed to load xml file: " ++ xml }, ?_⟩
    unfold AppBuilder.from_xml
    rw [hm]

/-- Witness for C9 with the concrete loader: the good xml yields the
wrapped model, the bad xml yields the constructed error value. -/
theorem C9_from_xml_errors_witness :
    c9_loader ("good.xml") = some { timestep := 1/500 }
      ∧ AppBuilder.from_xml c9_loader ("good.xml")
        = Except.ok { has_ctrl := false, has_rendering := false,
                      model := { timestep := 1/500 } }
      ∧ c9_loader ("bad.xml") = none
      ∧ AppBuilder.from_xml c9_loader ("bad.xml")
        = Except.error { msg := "Failed to load xml file: " ++ "bad.xml" } := by
  have hgood : c9_loader ("good.xml") = some { timestep := 1/500 } := by
    simp [c9_loader]
  have hbad : c9_loader ("bad.xml") = none := by
    simp [c9_loader]
  exact ⟨hgood,
    (C9_from_xml_errors c9_loader ("good.xml")).1 _ hgood,
    hbad,
    (C9_from_xml_errors c9_loader ("bad.xml")).2.1 hbad⟩

/-- C10: `Vfs::add_file` maps the collaborator's return code 1 to
`Err(VfsFull)`, code 2 to `Err(RepeatedName)`, and code 0 to `Ok(())`, in
each case exactly; and whenever the collaborator returns one of 0, 1, 2,
the unreachable panic arm (modelled as `none`) is not taken. -/
theorem C10_add_file_codes (add_buffer : String → List UInt8 → Int)
    (filename : String) (contents : List UInt8) :
    (Vfs.add_file add_buffer filename contents
        = some (Except.error AddError.VfsFull)
      ↔ add_buffer filename contents = 1)
      ∧ (Vfs.add_file add_buffer filename contents
        = some (Except.error AddError.RepeatedName)
      ↔ add_buffer filename contents = 2)
      ∧ (Vfs.add_file add_buffer filename contents = some (Except.ok ())
      ↔ add_buffer filename contents = 0)
      ∧ (add_buffer filename contents = 0
          ∨ add_buffer filename contents = 1
          ∨ add_buffer filename contents = 2 →
        Vfs.add_file add_buffer filename contents ≠ none) := by
  unfold Vfs.add_file add_file_from_code
  split_ifs with h1 h2 h0 <;> simp_all

/-- Witness for C10: a collaborator that returns 0 makes `add_file`
succeed without reaching the unreachable arm. -/
theorem C10_add_file_codes_witness :
    (fun (_ : String) (_ : List UInt8) => (0 : Int)) ("model.xml") [] = 0
      ∧ Vfs.add_file (fun _ _ => (0 : Int)) ("model.xml") [] ≠ none :=
  ⟨rfl,
    (C10_add_file_codes (fun _ _ => (0 : Int)) ("model.xml") []).2.2.2
      (Or.inl rfl)⟩

end MujocoRs
